import Mathlib

/-!
Shallow embedding of `control/src/stop_signs.rs` (the stop-sign policy
assignment and validation engine) and proofs of its specification
properties.

Modelling conventions:
* `TurnID`, `LaneID`, `IntersectionID` are `Nat`.
* `BTreeMap<TurnID, TurnPriority>` is an association list with unique keys
  maintained by `alInsert` (insert-or-overwrite); `alLookup` is keyed
  lookup.  `HashMap<LaneID, usize>` is likewise an association list; the
  rank stored for a lane is a function of the lane alone, so first-match
  lookup agrees with the Rust map even when a lane occurs twice in the
  iterated `incoming ++ outgoing` chain.  The `HashSet<usize>` of ranks is
  modelled by `List.dedup` of the iterated ranks (its `len()` is the number
  of distinct ranks).
* A Rust `panic!` / failed `assert!` / `unwrap()` on `Err` is modelled by
  returning `none`; fallible functions therefore return `Option`.
* The map model (`map_model` crate) is outside the excerpted source; its
  record types are embedded as the read-only collaborator interface the
  spec describes: intersection records, turn records, lane-to-parent-road
  classification lookup, and the conflict predicate as an abstract
  `TurnID → TurnID → Bool` oracle.
-/

namespace StopSigns

abbrev LaneID := Nat
abbrev TurnID := Nat
abbrev IntersectionID := Nat

/-- `TurnPriority` from the source: three-valued priority for a turn.
The Rust `derive(PartialOrd)` order is declaration order:
`Stop < Yield < Priority`. -/
inductive TurnPriority
  | Stop
  | Yield
  | Priority
deriving DecidableEq, Repr

/-- Modelled from the spec: turn shape classification (`map_model::TurnType`),
external to the excerpted source; the spec lists the shapes straight, right,
left, pedestrian-crossing (crosswalk) and other. -/
inductive TurnType
  | Crosswalk
  | Straight
  | Right
  | Left
  | Other
deriving DecidableEq, Repr

/-- Modelled from the spec: the turn record of the external map model, with
its source lane and shape classification. -/
structure Turn where
  src : LaneID
  turn_type : TurnType
deriving DecidableEq, Repr

/-- Modelled from the spec: `Turn::is_right_turn` of the external map model,
true iff the turn's shape is the right-turn shape. -/
def Turn.is_right_turn (t : Turn) : Bool :=
  t.turn_type == TurnType.Right

/-- Modelled from the spec: `Turn::is_straight_turn` of the external map
model, true iff the turn's shape is the straight shape. -/
def Turn.is_straight_turn (t : Turn) : Bool :=
  t.turn_type == TurnType.Straight

/-- Modelled from the spec: the intersection record of the external map
model: connected roads, incoming and outgoing lane lists, turn list, and
the signal-controlled flag. -/
structure Intersection where
  roads : List Nat
  incoming_lanes : List LaneID
  outgoing_lanes : List LaneID
  turns : List TurnID
  has_traffic_signal : Bool

/-- Modelled from the spec: the read-only map collaborator interface.
`get_parent_highway l` is `map.get_parent(l).osm_tags.get("highway")`
(the only road field the engine reads).  `conflicts a b` is the external
conflict oracle `map.get_t(a).conflicts_with(map.get_t(b))`. -/
structure Map where
  get_i : IntersectionID → Intersection
  get_t : TurnID → Turn
  get_parent_highway : LaneID → Option String
  conflicts : TurnID → TurnID → Bool

/-- Association-list insert-or-overwrite, the model of `BTreeMap::insert`
and `HashMap::insert`. -/
def alInsert {β : Type} : List (Nat × β) → Nat → β → List (Nat × β)
  | [], k, v => [(k, v)]
  | (k', v') :: rest, k, v =>
    if k = k' then (k, v) :: rest else (k', v') :: alInsert rest k v

/-- Association-list lookup, the model of `BTreeMap::get` / indexing. -/
def alLookup {β : Type} : List (Nat × β) → Nat → Option β
  | [], _ => none
  | (k', v') :: rest, k => if k = k' then some v' else alLookup rest k

/-- `ControlStopSign` from the source: one intersection's policy, the
turn-to-priority mapping, and the manual-edit (dirty) flag. -/
structure ControlStopSign where
  intersection : IntersectionID
  turns : List (TurnID × TurnPriority)
  changed : Bool
deriving DecidableEq, Repr

/-- `ControlStopSign::could_be_priority_turn`: true iff no turn currently
mapped to `Priority` conflicts (per the oracle, queried-turn first) with
`id`. -/
def could_be_priority_turn (ss : ControlStopSign) (id : TurnID) (m : Map) : Bool :=
  ss.turns.all fun p => !(p.2 == TurnPriority.Priority && m.conflicts id p.1)

/-- `ControlStopSign::get_priority`: `self.turns[&turn]`; the `BTreeMap`
index panics (`none`) when the turn is not a key. -/
def get_priority (ss : ControlStopSign) (turn : TurnID) : Option TurnPriority :=
  alLookup ss.turns turn

/-- `ControlStopSign::set_priority`: asserts `could_be_priority_turn` when
the new priority is `Priority` (failure is a panic, `none`, and the pre-call
mapping is untouched); otherwise overwrites the entry and sets the dirty
flag. -/
def set_priority (ss : ControlStopSign) (turn : TurnID) (priority : TurnPriority)
    (m : Map) : Option ControlStopSign :=
  if priority == TurnPriority.Priority && !(could_be_priority_turn ss turn m) then
    none
  else
    some { ss with turns := alInsert ss.turns turn priority, changed := true }

/-- `ControlStopSign::is_changed`: returns the dirty flag. -/
def is_changed (ss : ControlStopSign) : Bool :=
  ss.changed

/-- `ControlStopSign::validate`: the two `assert!`s of I1 (size equality and
key coverage) panic (`none`) on failure; a conflicting pair of
`Priority`-mapped turns yields the `ValidationError` (`Except.error`);
otherwise `Ok(())`. -/
def validate (ss : ControlStopSign) (m : Map) (intersection : IntersectionID) :
    Option (Except String Unit) :=
  let all_turns := (m.get_i intersection).turns
  if ss.turns.length == all_turns.length
      && all_turns.all (fun t => (alLookup ss.turns t).isSome) then
    let priority_turns : List TurnID :=
      ss.turns.filterMap fun p =>
        if p.2 == TurnPriority.Priority then some p.1 else none
    if priority_turns.any (fun t1 => priority_turns.any fun t2 => m.conflicts t1 t2) then
      some (Except.error "Stop sign has conflicting priority turns")
    else
      some (Except.ok ())
  else
    none

/-- `ControlStopSign::all_way_stop`: every turn of the intersection mapped
to `Stop`. -/
def all_way_stop (m : Map) (intersection : IntersectionID) : ControlStopSign :=
  { intersection := intersection
    turns := (m.get_i intersection).turns.foldl
      (fun acc t => alInsert acc t TurnPriority.Stop) []
    changed := false }

/-- The priority the degenerate/dead-end loop body assigns to one turn:
crosswalks `Stop`, everything else `Priority`. -/
def degenerate_priority (m : Map) (t : TurnID) : TurnPriority :=
  match (m.get_t t).turn_type with
  | TurnType.Crosswalk => TurnPriority.Stop
  | _ => TurnPriority.Priority

/-- The candidate mapping `for_degenerate_and_deadend` builds before
validating it. -/
def degenerate_candidate (m : Map) (i : IntersectionID) : ControlStopSign :=
  { intersection := i
    turns := (m.get_i i).turns.foldl
      (fun acc t => alInsert acc t (degenerate_priority m t)) []
    changed := false }

/-- `ControlStopSign::for_degenerate_and_deadend`: build the candidate;
if validation reports the conflict error, warn and fall back to
`all_way_stop`; a panic inside `validate` propagates. -/
def for_degenerate_and_deadend (m : Map) (i : IntersectionID) :
    Option ControlStopSign :=
  let ss := degenerate_candidate m i
  match validate ss m i with
  | none => none
  | some (Except.error _) => some (all_way_stop m i)
  | some (Except.ok _) => some ss

/-- The rank table of `smart_assignment`: `osm_tags.get("highway")`
matched against the fixed classification table; an unknown tag panics
(`none`); a missing tag is rank `0`. -/
def rank_of_highway : Option String → Option Nat
  | none => some 0
  | some highway =>
    if highway = "motorway" then some 20
    else if highway = "motorway_link" then some 19
    else if highway = "trunk" then some 17
    else if highway = "trunk_link" then some 16
    else if highway = "primary" then some 15
    else if highway = "primary_link" then some 14
    else if highway = "secondary" then some 13
    else if highway = "secondary_link" then some 12
    else if highway = "tertiary" then some 10
    else if highway = "tertiary_link" then some 9
    else if highway = "residential" then some 5
    else if highway = "footway" then some 1
    else if highway = "unclassified" then some 0
    else if highway = "road" then some 0
    else none

/-- The lane-classification loop of `smart_assignment`: rank every lane of
the iterated list in order, propagating a classification panic. -/
def lane_ranks (m : Map) : List LaneID → Option (List (LaneID × Nat))
  | [] => some []
  | l :: rest =>
    match rank_of_highway (m.get_parent_highway l) with
    | none => none
    | some r =>
      match lane_ranks m rest with
      | none => none
      | some a => some ((l, r) :: a)

/-- One iteration of the ranked-assignment turn loop of `smart_assignment`:
look up the source lane's rank (the `HashMap` index panics, `none`, if
absent); at the highest rank, a straight or right turn that passes
`could_be_priority_turn` against the assignments made so far becomes
`Priority` and every other highest-rank turn `Yield`; lower ranks `Stop`. -/
def ranked_step (m : Map) (rank_per_incoming_lane : List (LaneID × Nat))
    (highest_rank : Nat) (ss : ControlStopSign) (t : TurnID) :
    Option ControlStopSign :=
  match alLookup rank_per_incoming_lane (m.get_t t).src with
  | none => none
  | some r =>
    if r = highest_rank then
      if ((m.get_t t).is_right_turn || (m.get_t t).is_straight_turn)
          && could_be_priority_turn ss t m then
        some { ss with turns := alInsert ss.turns t TurnPriority.Priority }
      else
        some { ss with turns := alInsert ss.turns t TurnPriority.Yield }
    else
      some { ss with turns := alInsert ss.turns t TurnPriority.Stop }

/-- The ranked-assignment turn loop of `smart_assignment`, processing the
intersection's turns in their stored order. -/
def ranked_loop (m : Map) (rank_per_incoming_lane : List (LaneID × Nat))
    (highest_rank : Nat) : List TurnID → ControlStopSign → Option ControlStopSign
  | [], ss => some ss
  | t :: rest, ss =>
    match ranked_step m rank_per_incoming_lane highest_rank ss t with
    | none => none
    | some ss' => ranked_loop m rank_per_incoming_lane highest_rank rest ss'

/-- `ControlStopSign::smart_assignment`: strategy selection.  At most two
roads: the degenerate/dead-end strategy.  Otherwise rank every incoming and
outgoing lane; if only one distinct rank occurs, all-way stop; otherwise
the ranked assignment against the highest rank. -/
def smart_assignment (m : Map) (intersection : IntersectionID) :
    Option ControlStopSign :=
  if (m.get_i intersection).roads.length ≤ 2 then
    for_degenerate_and_deadend m intersection
  else
    match lane_ranks m ((m.get_i intersection).incoming_lanes
        ++ (m.get_i intersection).outgoing_lanes) with
    | none => none
    | some rank_per_incoming_lane =>
      let all_ranks := rank_per_incoming_lane.map Prod.snd
      let highest_rank := all_ranks.foldl Nat.max 0
      if all_ranks.dedup.length = 1 then
        some (all_way_stop m intersection)
      else
        ranked_loop m rank_per_incoming_lane highest_rank
          (m.get_i intersection).turns
          { intersection := intersection, turns := [], changed := false }

/-- `ControlStopSign::new`: asserts the intersection is not
signal-controlled, runs `smart_assignment` and `unwrap`s its validation. -/
def ControlStopSign.new (m : Map) (intersection : IntersectionID) :
    Option ControlStopSign :=
  if (m.get_i intersection).has_traffic_signal then
    none
  else
    match smart_assignment m intersection with
    | none => none
    | some ss =>
      match validate ss m intersection with
      | some (Except.ok _) => some ss
      | _ => none

/-- The key safety invariant of the ranked pass (invariant I2): all
`Priority`-mapped entries are pairwise conflict-free under the oracle. -/
def PriOK (m : Map) (l : List (TurnID × TurnPriority)) : Prop :=
  ∀ t1 t2, (t1, TurnPriority.Priority) ∈ l → (t2, TurnPriority.Priority) ∈ l →
    m.conflicts t1 t2 = false

/-! ### Concrete map instances used to exercise the theorems -/

/-- A three-road intersection: lane 0 belongs to a primary road, lanes 1-3
to residential roads; turn 0 goes straight from lane 0, turn 1 is a left
turn from lane 1; no two turns conflict. -/
def mR : Map :=
  { get_i := fun _ =>
      { roads := [0, 1, 2]
        incoming_lanes := [0, 1]
        outgoing_lanes := [2, 3]
        turns := [0, 1]
        has_traffic_signal := false }
    get_t := fun t =>
      if t = 0 then { src := 0, turn_type := TurnType.Straight }
      else { src := 1, turn_type := TurnType.Left }
    get_parent_highway := fun l =>
      if l = 0 then some "primary" else some "residential"
    conflicts := fun _ _ => false }

/-- The policy the ranked strategy produces on `mR`. -/
def ssR : ControlStopSign :=
  { intersection := 0
    turns := [(0, TurnPriority.Priority), (1, TurnPriority.Stop)]
    changed := false }

/-- The lane-rank table `lane_ranks` computes on `mR`. -/
def AR : List (LaneID × Nat) :=
  [(0, 15), (1, 5), (2, 5), (3, 5)]

/-- A four-road intersection whose roads are all residential. -/
def mU : Map :=
  { get_i := fun _ =>
      { roads := [0, 1, 2, 3]
        incoming_lanes := [0, 1, 2, 3]
        outgoing_lanes := [4, 5, 6, 7]
        turns := [0, 1, 2, 3]
        has_traffic_signal := false }
    get_t := fun t => { src := t % 4, turn_type := TurnType.Straight }
    get_parent_highway := fun _ => some "residential"
    conflicts := fun _ _ => false }

/-- The lane-rank table `lane_ranks` computes on `mU`. -/
def AU : List (LaneID × Nat) :=
  [(0, 5), (1, 5), (2, 5), (3, 5), (4, 5), (5, 5), (6, 5), (7, 5)]

/-- A two-road intersection: turn 0 goes straight, turn 1 is a crosswalk;
no two turns conflict. -/
def mD : Map :=
  { get_i := fun _ =>
      { roads := [0, 1]
        incoming_lanes := [0, 1]
        outgoing_lanes := [2, 3]
        turns := [0, 1]
        has_traffic_signal := false }
    get_t := fun t =>
      if t = 0 then { src := 0, turn_type := TurnType.Straight }
      else { src := 1, turn_type := TurnType.Crosswalk }
    get_parent_highway := fun _ => some "residential"
    conflicts := fun _ _ => false }

/-- A map whose conflict oracle reports no conflicts at all. -/
def mFree : Map :=
  { get_i := fun _ =>
      { roads := [0, 1, 2]
        incoming_lanes := [0]
        outgoing_lanes := [1]
        turns := [0, 1]
        has_traffic_signal := false }
    get_t := fun _ => { src := 0, turn_type := TurnType.Straight }
    get_parent_highway := fun _ => some "residential"
    conflicts := fun _ _ => false }

/-- A policy holding a single `Priority` entry for turn 0. -/
def exCss : ControlStopSign :=
  { intersection := 0
    turns := [(0, TurnPriority.Priority)]
    changed := false }

/-! ### Association-list lemmas -/

theorem alLookup_alInsert_self {β : Type} (l : List (Nat × β)) (k : Nat) (v : β) :
    alLookup (alInsert l k v) k = some v := by
  induction l with
  | nil => simp [alInsert, alLookup]
  | cons p rest ih =>
    obtain ⟨k', v'⟩ := p
    by_cases h : k = k' <;> simp [alInsert, alLookup, h, ih]

theorem alLookup_alInsert_ne {β : Type} (l : List (Nat × β)) (k : Nat) (v : β)
    (t : Nat) (h : t ≠ k) : alLookup (alInsert l k v) t = alLookup l t := by
  induction l with
  | nil => simp [alInsert, alLookup, h]
  | cons p rest ih =>
    obtain ⟨k', v'⟩ := p
    by_cases hk : k = k'
    · subst hk
      simp [alInsert, alLookup, h]
    · by_cases ht : t = k' <;> simp [alInsert, alLookup, hk, ht, ih]

theorem isSome_alLookup_alInsert {β : Type} (l : List (Nat × β)) (k : Nat) (v : β)
    (t : Nat) :
    (alLookup (alInsert l k v) t).isSome ↔ t = k ∨ (alLookup l t).isSome := by
  by_cases h : t = k
  · subst h
    simp [alLookup_alInsert_self]
  · simp [alLookup_alInsert_ne l k v t h, h]

theorem mem_alInsert {β : Type} (l : List (Nat × β)) (k : Nat) (v : β)
    (p : Nat × β) (h : p ∈ alInsert l k v) : p = (k, v) ∨ p ∈ l := by
  induction l with
  | nil => simpa [alInsert] using h
  | cons q rest ih =>
    obtain ⟨k', v'⟩ := q
    rw [alInsert] at h
    split at h
    · rcases List.mem_cons.mp h with h1 | h1
      · exact Or.inl h1
      · exact Or.inr (List.mem_cons.mpr (Or.inr h1))
    · rcases List.mem_cons.mp h with h1 | h1
      · exact Or.inr (List.mem_cons.mpr (Or.inl h1))
      · rcases ih h1 with h2 | h2
        · exact Or.inl h2
        · exact Or.inr (List.mem_cons.mpr (Or.inr h2))

theorem alLookup_mem {β : Type} (l : List (Nat × β)) (k : Nat) (v : β)
    (h : alLookup l k = some v) : (k, v) ∈ l := by
  induction l with
  | nil => simp [alLookup] at h
  | cons p rest ih =>
    obtain ⟨k', v'⟩ := p
    by_cases hk : k = k'
    · subst hk
      rw [alLookup, if_pos rfl] at h
      injection h with h
      subst h
      exact List.mem_cons_self _ _
    · rw [alLookup, if_neg hk] at h
      exact List.mem_cons_of_mem _ (ih h)

theorem alLookup_foldl_insert {β : Type} (f : Nat → β) (L : List Nat)
    (acc : List (Nat × β)) (t : Nat) :
    alLookup (L.foldl (fun a u => alInsert a u (f u)) acc) t =
      if t ∈ L then some (f t) else alLookup acc t := by
  induction L generalizing acc with
  | nil => simp
  | cons u rest ih =>
    simp only [List.foldl_cons]
    rw [ih]
    by_cases hmem : t ∈ rest
    · simp [hmem]
    · by_cases hu : t = u
      · subst hu
        simp [hmem, alLookup_alInsert_self]
      · simp [hmem, hu, alLookup_alInsert_ne acc u (f u) t hu]

theorem mem_foldl_insert {β : Type} (f : Nat → β) (L : List Nat)
    (acc : List (Nat × β)) (p : Nat × β)
    (h : p ∈ L.foldl (fun a u => alInsert a u (f u)) acc) :
    p ∈ acc ∨ ∃ u ∈ L, p = (u, f u) := by
  induction L generalizing acc with
  | nil => exact Or.inl (by simpa using h)
  | cons u rest ih =>
    simp only [List.foldl_cons] at h
    rcases ih (alInsert acc u (f u)) h with h' | h'
    · rcases mem_alInsert acc u (f u) p h' with h'' | h''
      · exact Or.inr ⟨u, List.mem_cons_self _ _, h''⟩
      · exact Or.inl h''
    · obtain ⟨w, hw, hp⟩ := h'
      exact Or.inr ⟨w, List.mem_cons_of_mem _ hw, hp⟩

/-! ### `could_be_priority_turn`, `ranked_loop` and `validate` lemmas -/

theorem could_be_priority_turn_eq_true (ss : ControlStopSign) (id : TurnID) (m : Map) :
    could_be_priority_turn ss id m = true ↔
      ∀ u, (u, TurnPriority.Priority) ∈ ss.turns → m.conflicts id u = false := by
  rw [could_be_priority_turn, List.all_eq_true]
  constructor
  · intro h u hu
    have h2 := h (u, TurnPriority.Priority) hu
    simpa using h2
  · intro h p hp
    obtain ⟨u, pri⟩ := p
    by_cases hpri : pri = TurnPriority.Priority
    · subst hpri
      simpa using h u hp
    · simp [hpri]

theorem ranked_step_turns (m : Map) (A : List (LaneID × Nat)) (hi : Nat)
    (ss : ControlStopSign) (t : TurnID) (ss' : ControlStopSign)
    (h : ranked_step m A hi ss t = some ss') :
    ∃ pri, ss' = { ss with turns := alInsert ss.turns t pri } := by
  rw [ranked_step] at h
  split at h
  · exact absurd h (by simp)
  · split at h
    · split at h
      · exact ⟨TurnPriority.Priority, by injection h with h; exact h.symm⟩
      · exact ⟨TurnPriority.Yield, by injection h with h; exact h.symm⟩
    · exact ⟨TurnPriority.Stop, by injection h with h; exact h.symm⟩

theorem ranked_loop_append (m : Map) (A : List (LaneID × Nat)) (hi : Nat)
    (L1 L2 : List TurnID) (ss : ControlStopSign) :
    ranked_loop m A hi (L1 ++ L2) ss =
      match ranked_loop m A hi L1 ss with
      | none => none
      | some mid => ranked_loop m A hi L2 mid := by
  induction L1 generalizing ss with
  | nil => simp [ranked_loop]
  | cons t rest ih =>
    rw [List.cons_append, ranked_loop, ranked_loop]
    rcases hstep : ranked_step m A hi ss t with _ | ss₁
    · rfl
    · exact ih ss₁

theorem ranked_loop_lookup_of_not_mem (m : Map) (A : List (LaneID × Nat)) (hi : Nat)
    (L : List TurnID) (ss ss' : ControlStopSign) (t : TurnID)
    (hL : ranked_loop m A hi L ss = some ss') (ht : t ∉ L) :
    alLookup ss'.turns t = alLookup ss.turns t := by
  induction L generalizing ss with
  | nil =>
    rw [ranked_loop] at hL
    injection hL with hL
    rw [hL]
  | cons u rest ih =>
    rw [ranked_loop] at hL
    rcases hstep : ranked_step m A hi ss u with _ | ss₁
    · rw [hstep] at hL
      exact absurd hL (by simp)
    · rw [hstep] at hL
      obtain ⟨pri, hss₁⟩ := ranked_step_turns m A hi ss u ss₁ hstep
      have htu : t ≠ u := fun he => ht (he ▸ List.mem_cons_self _ _)
      have htr : t ∉ rest := fun he => ht (List.mem_cons_of_mem _ he)
      rw [ih ss₁ hL htr, hss₁]
      exact alLookup_alInsert_ne ss.turns u pri t htu

theorem ranked_loop_isSome (m : Map) (A : List (LaneID × Nat)) (hi : Nat)
    (L : List TurnID) (ss ss' : ControlStopSign) (t : TurnID)
    (hL : ranked_loop m A hi L ss = some ss') :
    (alLookup ss'.turns t).isSome ↔ t ∈ L ∨ (alLookup ss.turns t).isSome := by
  induction L generalizing ss with
  | nil =>
    rw [ranked_loop] at hL
    injection hL with hL
    rw [hL]
    simp
  | cons u rest ih =>
    rw [ranked_loop] at hL
    rcases hstep : ranked_step m A hi ss u with _ | ss₁
    · rw [hstep] at hL
      exact absurd hL (by simp)
    · rw [hstep] at hL
      obtain ⟨pri, hss₁⟩ := ranked_step_turns m A hi ss u ss₁ hstep
      rw [ih ss₁ hL, hss₁]
      simp only [isSome_alLookup_alInsert, List.mem_cons]
      tauto

theorem ranked_step_PriOK (m : Map) (A : List (LaneID × Nat)) (hi : Nat)
    (ss : ControlStopSign) (t : TurnID) (ss' : ControlStopSign)
    (hirr : ∀ u, m.conflicts u u = false)
    (hsymm : ∀ a b, m.conflicts a b = m.conflicts b a)
    (hok : PriOK m ss.turns) (h : ranked_step m A hi ss t = some ss') :
    PriOK m ss'.turns := by
  rw [ranked_step] at h
  split at h
  · exact absurd h (by simp)
  split at h
  · split at h
    · -- Priority inserted after passing could_be_priority_turn
      rename_i hcond
      have hcould : could_be_priority_turn ss t m = true :=
        (Bool.and_eq_true _ _).mp hcond |>.2
      have hconf := (could_be_priority_turn_eq_true ss t m).mp hcould
      injection h with h
      subst h
      intro t1 t2 h1 h2
      simp only at h1 h2
      rcases mem_alInsert ss.turns t TurnPriority.Priority _ h1 with h1' | h1' <;>
        rcases mem_alInsert ss.turns t TurnPriority.Priority _ h2 with h2' | h2'
      · have e1 : t1 = t := congrArg Prod.fst h1'
        have e2 : t2 = t := congrArg Prod.fst h2'
        rw [e1, e2]
        exact hirr t
      · have e1 : t1 = t := congrArg Prod.fst h1'
        rw [e1]
        exact hconf t2 h2'
      · have e2 : t2 = t := congrArg Prod.fst h2'
        rw [e2, hsymm t1 t]
        exact hconf t1 h1'
      · exact hok t1 t2 h1' h2'
    · -- Yield inserted: no new Priority entry
      injection h with h
      subst h
      intro t1 t2 h1 h2
      simp only at h1 h2
      rcases mem_alInsert ss.turns t TurnPriority.Yield _ h1 with h1' | h1'
      · exact absurd (congrArg Prod.snd h1') (by simp)
      rcases mem_alInsert ss.turns t TurnPriority.Yield _ h2 with h2' | h2'
      · exact absurd (congrArg Prod.snd h2') (by simp)
      exact hok t1 t2 h1' h2'
  · -- Stop inserted: no new Priority entry
    injection h with h
    subst h
    intro t1 t2 h1 h2
    simp only at h1 h2
    rcases mem_alInsert ss.turns t TurnPriority.Stop _ h1 with h1' | h1'
    · exact absurd (congrArg Prod.snd h1') (by simp)
    rcases mem_alInsert ss.turns t TurnPriority.Stop _ h2 with h2' | h2'
    · exact absurd (congrArg Prod.snd h2') (by simp)
    exact hok t1 t2 h1' h2'

theorem ranked_loop_PriOK (m : Map) (A : List (LaneID × Nat)) (hi : Nat)
    (L : List TurnID) (ss ss' : ControlStopSign)
    (hirr : ∀ u, m.conflicts u u = false)
    (hsymm : ∀ a b, m.conflicts a b = m.conflicts b a)
    (hok : PriOK m ss.turns) (hL : ranked_loop m A hi L ss = some ss') :
    PriOK m ss'.turns := by
  induction L generalizing ss with
  | nil =>
    rw [ranked_loop] at hL
    injection hL with hL
    exact hL ▸ hok
  | cons u rest ih =>
    rw [ranked_loop] at hL
    rcases hstep : ranked_step m A hi ss u with _ | ss₁
    · rw [hstep] at hL
      exact absurd hL (by simp)
    · rw [hstep] at hL
      exact ih ss₁ (ranked_step_PriOK m A hi ss u ss₁ hirr hsymm hok hstep) hL

theorem mem_priority_turns (ss : ControlStopSign) (t : TurnID) :
    t ∈ ss.turns.filterMap
        (fun p => if p.2 == TurnPriority.Priority then some p.1 else none) ↔
      (t, TurnPriority.Priority) ∈ ss.turns := by
  simp only [List.mem_filterMap]
  constructor
  · rintro ⟨⟨u, pri⟩, hmem, hf⟩
    by_cases hpri : pri = TurnPriority.Priority
    · subst hpri
      simp only [beq_self_eq_true, if_pos, Option.some.injEq] at hf
      exact hf ▸ hmem
    · simp [hpri] at hf
  · intro hmem
    exact ⟨(t, TurnPriority.Priority), hmem, by simp⟩

theorem validate_not_error_of_PriOK (ss : ControlStopSign) (m : Map)
    (i : IntersectionID) (hok : PriOK m ss.turns) (e : String) :
    validate ss m i ≠ some (Except.error e) := by
  simp only [validate]
  split
  · split
    · rename_i hany
      exfalso
      simp only [List.any_eq_true] at hany
      obtain ⟨t1, ht1, t2, ht2, hc⟩ := hany
      rw [mem_priority_turns] at ht1 ht2
      rw [hok t1 t2 ht1 ht2] at hc
      exact Bool.false_ne_true hc
    · simp
  · simp

theorem validate_ok_elim (ss : ControlStopSign) (m : Map) (i : IntersectionID)
    (h : validate ss m i = some (Except.ok ())) :
    (ss.turns.length = (m.get_i i).turns.length ∧
      ∀ t ∈ (m.get_i i).turns, (alLookup ss.turns t).isSome) ∧
    ∀ t1 t2, (t1, TurnPriority.Priority) ∈ ss.turns →
      (t2, TurnPriority.Priority) ∈ ss.turns → m.conflicts t1 t2 = false := by
  simp only [validate] at h
  split at h
  · rename_i hassert
    simp only [Bool.and_eq_true, beq_iff_eq, List.all_eq_true] at hassert
    refine ⟨⟨hassert.1, fun t ht => by simpa using hassert.2 t ht⟩, ?_⟩
    split at h
    · exact absurd h (by simp)
    · rename_i hany
      intro t1 t2 ht1 ht2
      cases hcb : m.conflicts t1 t2
      · rfl
      · exfalso
        apply hany
        rw [List.any_eq_true]
        refine ⟨t1, (mem_priority_turns ss t1).mpr ht1, ?_⟩
        rw [List.any_eq_true]
        exact ⟨t2, (mem_priority_turns ss t2).mpr ht2, hcb⟩
  · exact absurd h (by simp)

/-! ### Strategy-level helper lemmas -/

theorem alLookup_build {β : Type} (f : Nat → β) (L : List Nat) (t : Nat) :
    (alLookup (L.foldl (fun a u => alInsert a u (f u)) []) t).isSome ↔ t ∈ L := by
  rw [alLookup_foldl_insert]
  by_cases hmem : t ∈ L <;> simp [hmem, alLookup]

theorem lane_ranks_isSome (m : Map) (ls : List LaneID) (A : List (LaneID × Nat))
    (h : lane_ranks m ls = some A) :
    ∀ l ∈ ls, (alLookup A l).isSome := by
  induction ls generalizing A with
  | nil =>
    intro l hl
    cases hl
  | cons l0 rest ih =>
    rw [lane_ranks] at h
    split at h
    · exact absurd h (by simp)
    · rename_i r hr
      split at h
      · exact absurd h (by simp)
      · rename_i a ha
        injection h with h
        subst h
        intro l hl
        by_cases he : l = l0
        · subst he
          simp [alLookup]
        · rw [alLookup, if_neg he]
          rcases List.mem_cons.mp hl with hl' | hl'
          · exact absurd hl' he
          · exact ih a ha l hl'

theorem dedup_all_eq {xs : List Nat} (r : Nat) (hne : xs ≠ [])
    (hall : ∀ x ∈ xs, x = r) : xs.dedup = [r] := by
  induction xs with
  | nil => exact absurd rfl hne
  | cons x rest ih =>
    have hx : x = r := hall x (List.mem_cons_self _ _)
    by_cases hrest : rest = []
    · subst hrest
      simp [hx]
    · have hmem : x ∈ rest := by
        obtain ⟨y, hy⟩ := List.exists_mem_of_ne_nil rest hrest
        have hyr := hall y (List.mem_cons_of_mem _ hy)
        rw [hx, ← hyr]
        exact hy
      rw [List.dedup_cons_of_mem hmem]
      exact ih hrest (fun z hz => hall z (List.mem_cons_of_mem _ hz))

theorem smart_assignment_keys (m : Map) (i : IntersectionID) (ss : ControlStopSign)
    (h : smart_assignment m i = some ss) :
    ∀ t, (alLookup ss.turns t).isSome ↔ t ∈ (m.get_i i).turns := by
  intro t
  simp only [smart_assignment] at h
  split at h
  · -- degenerate / dead-end strategy
    rw [for_degenerate_and_deadend] at h
    split at h
    · exact absurd h (by simp)
    · injection h with h
      subst h
      exact alLookup_build (fun _ => TurnPriority.Stop) (m.get_i i).turns t
    · injection h with h
      subst h
      exact alLookup_build (degenerate_priority m) (m.get_i i).turns t
  · split at h
    · exact absurd h (by simp)
    · split at h
      · -- uniform rank: all-way stop
        injection h with h
        subst h
        exact alLookup_build (fun _ => TurnPriority.Stop) (m.get_i i).turns t
      · -- ranked assignment
        rw [ranked_loop_isSome _ _ _ _ _ _ t h]
        simp [alLookup]

/-! ### Claim theorems -/

/-- Claim C1: every `Policy` returned by `ControlStopSign::new` satisfies I1 (the
mapping's key set equals exactly the intersection's turn set) and I2 (for
every unordered pair of distinct turns both mapped to `Priority`, the
conflict predicate between them is false). -/
theorem new_satisfies_invariants (m : Map) (i : IntersectionID)
    (ss : ControlStopSign) (h : ControlStopSign.new m i = some ss) :
    (∀ t, (alLookup ss.turns t).isSome ↔ t ∈ (m.get_i i).turns) ∧
    (∀ t1 t2, t1 ≠ t2 →
      alLookup ss.turns t1 = some TurnPriority.Priority →
      alLookup ss.turns t2 = some TurnPriority.Priority →
      m.conflicts t1 t2 = false) := by
  rw [ControlStopSign.new] at h
  split at h
  · exact absurd h (by simp)
  · split at h
    · exact absurd h (by simp)
    · rename_i ss₁ hsmart
      split at h
      · rename_i val hval
        injection h with h
        subst h
        refine ⟨smart_assignment_keys m i ss₁ hsmart, ?_⟩
        intro t1 t2 _ h1 h2
        obtain ⟨⟩ := val
        exact (validate_ok_elim ss₁ m i hval).2 t1 t2
          (alLookup_mem _ _ _ h1) (alLookup_mem _ _ _ h2)
      · exact absurd h (by simp)

/-- Claim C1 witness: `new` on the concrete ranked map `mR` returns the policy
`ssR`, whose key set is `{0, 1}` = the intersection's turns. -/
theorem new_satisfies_invariants_witness :
    (alLookup ssR.turns 0).isSome ∧ ¬ (alLookup ssR.turns 5).isSome := by
  have h := new_satisfies_invariants mR 0 ssR (by decide)
  exact ⟨(h.1 0).mpr (by decide), fun hs => absurd ((h.1 5).mp hs) (by decide)⟩

/-- Claim C2: for an intersection with more than two roads (the uniform-rank and
ranked strategies), a candidate produced by `smart_assignment` never takes
the `ValidationError` branch of `validate`, given an irreflexive and
symmetric conflict oracle (properties of the external conflict predicate,
which compares distinct turn paths). -/
theorem ranked_uniform_pass_validation (m : Map) (i : IntersectionID)
    (ss : ControlStopSign)
    (hroads : ¬ (m.get_i i).roads.length ≤ 2)
    (hirr : ∀ u, m.conflicts u u = false)
    (hsymm : ∀ a b, m.conflicts a b = m.conflicts b a)
    (hss : smart_assignment m i = some ss) :
    ∀ e, validate ss m i ≠ some (Except.error e) := by
  intro e
  apply validate_not_error_of_PriOK ss m i ?_ e
  simp only [smart_assignment, if_neg hroads] at hss
  split at hss
  · exact absurd hss (by simp)
  · rename_i A hA
    split at hss
    · -- uniform rank: the all-way stop has no Priority entry
      injection hss with hss
      subst hss
      intro t1 t2 h1 h2
      simp only [all_way_stop] at h1
      rcases mem_foldl_insert _ _ _ _ h1 with h' | ⟨u, _, he⟩
      · cases h'
      · exact absurd (congrArg Prod.snd he) (by simp)
    · -- ranked assignment: the invariant is maintained by construction
      refine ranked_loop_PriOK m A _ _ _ ss hirr hsymm ?_ hss
      intro t1 t2 h1 _
      cases h1

/-- Claim C2 witness: the concrete ranked policy `ssR` on `mR` does not fail
validation. -/
theorem ranked_uniform_pass_validation_witness :
    validate ssR mR 0 ≠ some (Except.error "Stop sign has conflicting priority turns") :=
  ranked_uniform_pass_validation mR 0 ssR (by decide) (fun _ => rfl)
    (fun _ _ => rfl) (by decide) "Stop sign has conflicting priority turns"

/-- Claim C6: `new` (the `assign` operation) is a deterministic function of the
map state: two calls over maps that agree on every intersection record,
turn record, road classification and conflict query produce identical
policies. -/
theorem assignment_deterministic (m1 m2 : Map) (i : IntersectionID)
    (hgi : ∀ j, m1.get_i j = m2.get_i j)
    (hgt : ∀ t, m1.get_t t = m2.get_t t)
    (hph : ∀ l, m1.get_parent_highway l = m2.get_parent_highway l)
    (hc : ∀ a b, m1.conflicts a b = m2.conflicts a b) :
    ControlStopSign.new m1 i = ControlStopSign.new m2 i := by
  have hm : m1 = m2 := by
    obtain ⟨gi1, gt1, ph1, c1⟩ := m1
    obtain ⟨gi2, gt2, ph2, c2⟩ := m2
    simp only [Map.mk.injEq]
    exact ⟨funext hgi, funext hgt, funext hph,
      funext fun a => funext fun b => hc a b⟩
  rw [hm]

/-- Claim C6 witness: two `new` calls on the unmodified concrete map `mR` agree. -/
theorem assignment_deterministic_witness :
    ControlStopSign.new mR 0 = ControlStopSign.new mR 0 :=
  assignment_deterministic mR mR 0 (fun _ => rfl) (fun _ => rfl)
    (fun _ => rfl) (fun _ _ => rfl)

/-- Claim C7: `set_priority(turn, newPriority)` with `newPriority = Priority`
requires `could_be_priority_turn`; a violation is fatal (`none`, so the
stored mapping is left untouched); on success the entry is overwritten
with the new priority and the dirty flag is set. -/
theorem set_priority_spec (ss : ControlStopSign) (turn : TurnID)
    (priority : TurnPriority) (m : Map) :
    (priority = TurnPriority.Priority →
      could_be_priority_turn ss turn m = false →
      set_priority ss turn priority m = none) ∧
    ((priority = TurnPriority.Priority →
        could_be_priority_turn ss turn m = true) →
      set_priority ss turn priority m =
        some { ss with turns := alInsert ss.turns turn priority, changed := true }) := by
  constructor
  · intro hp hc
    subst hp
    simp [set_priority, hc]
  · intro hok
    by_cases hp : priority = TurnPriority.Priority
    · subst hp
      simp [set_priority, hok rfl]
    · have : (priority == TurnPriority.Priority) = false := by
        simpa using hp
      simp [set_priority, this]

/-- Claim C7 witness: on the conflict-free map `mFree`, granting `Priority` to
turn 1 next to the already-`Priority` turn 0 succeeds and sets the dirty
flag. -/
theorem set_priority_spec_witness :
    set_priority exCss 1 TurnPriority.Priority mFree =
      some { intersection := 0,
             turns := [(0, TurnPriority.Priority), (1, TurnPriority.Priority)],
             changed := true } :=
  ((set_priority_spec exCss 1 TurnPriority.Priority mFree).2
    (fun _ => by decide)).trans (by decide)

/-- Claim C8: `could_be_priority_turn(turn)` returns true iff no turn currently
mapped to `Priority` — other than `turn` itself — conflicts with `turn`,
given an irreflexive and symmetric conflict oracle. -/
theorem could_be_priority_turn_iff (ss : ControlStopSign) (turn : TurnID)
    (m : Map)
    (hirr : m.conflicts turn turn = false)
    (hsymm : ∀ a b, m.conflicts a b = m.conflicts b a) :
    could_be_priority_turn ss turn m = true ↔
      ∀ u, (u, TurnPriority.Priority) ∈ ss.turns → u ≠ turn →
        m.conflicts u turn = false := by
  rw [could_be_priority_turn_eq_true]
  constructor
  · intro h u hu _
    rw [hsymm u turn]
    exact h u hu
  · intro h u hu
    by_cases he : u = turn
    · subst he
      exact hirr
    · rw [hsymm turn u]
      exact h u hu he

/-- Claim C8 witness: with a single `Priority` entry for turn 0 and a
conflict-free oracle, turn 1 could be made a priority turn. -/
theorem could_be_priority_turn_iff_witness :
    could_be_priority_turn exCss 1 mFree = true :=
  (could_be_priority_turn_iff exCss 1 mFree rfl (fun _ _ => rfl)).mpr
    (fun _ _ _ => rfl)

/-- Claim C4: for an intersection touching at most two roads, the degenerate
strategy's candidate maps every pedestrian-crossing (crosswalk) turn to
`Stop` and every other turn to `Priority`; if the candidate takes the
`ValidationError` branch it is discarded for the all-way stop (a
recoverable path yielding a policy, never a fatal failure), and if it
validates it is returned as the assignment. -/
theorem degenerate_assignment_and_fallback (m : Map) (i : IntersectionID)
    (hroads : (m.get_i i).roads.length ≤ 2) :
    (∀ t ∈ (m.get_i i).turns,
      alLookup (degenerate_candidate m i).turns t =
        some (match (m.get_t t).turn_type with
          | TurnType.Crosswalk => TurnPriority.Stop
          | _ => TurnPriority.Priority)) ∧
    (∀ e, validate (degenerate_candidate m i) m i = some (Except.error e) →
      smart_assignment m i = some (all_way_stop m i)) ∧
    (validate (degenerate_candidate m i) m i = some (Except.ok ()) →
      smart_assignment m i = some (degenerate_candidate m i)) := by
  refine ⟨?_, ?_, ?_⟩
  · intro t ht
    simp only [degenerate_candidate]
    rw [alLookup_foldl_insert, if_pos ht]
    rfl
  · intro e he
    simp only [smart_assignment, if_pos hroads, for_degenerate_and_deadend, he]
  · intro hok
    simp only [smart_assignment, if_pos hroads, for_degenerate_and_deadend, hok]

/-- Claim C4 witness: on the concrete two-road map `mD`, the candidate validates
and is the assignment; its crosswalk turn 1 is mapped to `Stop`. -/
theorem degenerate_assignment_and_fallback_witness :
    smart_assignment mD 0 = some (degenerate_candidate mD 0) ∧
    alLookup (degenerate_candidate mD 0).turns 1 = some TurnPriority.Stop := by
  have h := degenerate_assignment_and_fallback mD 0 (by decide)
  exact ⟨h.2.2 rfl, (h.1 1 (by decide)).trans (by decide)⟩

/-- Claim C5: for an intersection with more than two roads, a rank is computed
for every lane touching the intersection in either direction (incoming and
outgoing together), and when all computed ranks are equal the assignment
is the all-way stop, mapping every turn of the intersection to `Stop`. -/
theorem uniform_rank_all_way_stop (m : Map) (i : IntersectionID)
    (A : List (LaneID × Nat)) (r0 : Nat)
    (hroads : ¬ (m.get_i i).roads.length ≤ 2)
    (hA : lane_ranks m
      ((m.get_i i).incoming_lanes ++ (m.get_i i).outgoing_lanes) = some A)
    (hne : A ≠ [])
    (hall : ∀ p ∈ A, p.2 = r0) :
    (∀ l ∈ (m.get_i i).incoming_lanes ++ (m.get_i i).outgoing_lanes,
      (alLookup A l).isSome) ∧
    smart_assignment m i = some (all_way_stop m i) ∧
    (∀ t ∈ (m.get_i i).turns,
      alLookup (all_way_stop m i).turns t = some TurnPriority.Stop) := by
  have hdedup : (A.map Prod.snd).dedup = [r0] := by
    apply dedup_all_eq r0
    · simpa using hne
    · intro x hx
      obtain ⟨p, hp, he⟩ := List.mem_map.mp hx
      exact he ▸ hall p hp
  refine ⟨lane_ranks_isSome m _ A hA, ?_, ?_⟩
  · simp [smart_assignment, if_neg hroads, hA, hdedup]
  · intro t ht
    simp only [all_way_stop]
    rw [alLookup_foldl_insert, if_pos ht]

/-- Claim C5 witness: on the all-residential four-road map `mU`, every lane has a
rank, the assignment is the all-way stop, and turn 2 is mapped to `Stop`. -/
theorem uniform_rank_all_way_stop_witness :
    (alLookup AU 0).isSome ∧
    smart_assignment mU 0 = some (all_way_stop mU 0) ∧
    alLookup (all_way_stop mU 0).turns 2 = some TurnPriority.Stop := by
  have h := uniform_rank_all_way_stop mU 0 AU 5 (by decide) (by decide)
    (by decide) (by decide)
  exact ⟨h.1 0 (by decide), h.2.1, h.2.2 2 (by decide)⟩

/-- Claim C9 counterexample: a `set_priority` call referencing a turn id that is
not part of the policy's mapping (turn 5 is unknown to `exCss`) is NOT
fatal: it is silently accepted and inserts a fresh entry, contradicting
the claim that it fails like `get_priority` does. -/
theorem set_priority_unknown_turn_accepted :
    alLookup exCss.turns 5 = none ∧
    set_priority exCss 5 TurnPriority.Stop mFree =
      some { intersection := 0,
             turns := [(0, TurnPriority.Priority), (5, TurnPriority.Stop)],
             changed := true } ∧
    set_priority exCss 5 TurnPriority.Stop mFree ≠ none := by
  decide

/-- Claim C9 amended: `get_priority` on an unknown turn id is fatal (the
`BTreeMap` index panics), while `set_priority` on an unknown turn id is
silently accepted — subject only to the `Priority` conflict assert — and
inserts a new entry, setting the dirty flag. -/
theorem unknown_turn_api (ss : ControlStopSign) (turn : TurnID) (m : Map)
    (h : alLookup ss.turns turn = none) :
    get_priority ss turn = none ∧
    ∀ priority, (priority = TurnPriority.Priority →
        could_be_priority_turn ss turn m = true) →
      set_priority ss turn priority m =
        some { ss with turns := alInsert ss.turns turn priority, changed := true } := by
  refine ⟨h, ?_⟩
  intro priority hok
  by_cases hp : priority = TurnPriority.Priority
  · subst hp
    simp [set_priority, hok rfl]
  · have hb : (priority == TurnPriority.Priority) = false := by
      simpa using hp
    simp [set_priority, hb]

/-- Claim C9 amended witness: on `exCss` the unknown turn 5 makes `get_priority`
fatal while `set_priority` inserts the entry. -/
theorem unknown_turn_api_witness :
    get_priority exCss 5 = none ∧
    set_priority exCss 5 TurnPriority.Yield mFree =
      some { intersection := 0,
             turns := [(0, TurnPriority.Priority), (5, TurnPriority.Yield)],
             changed := true } := by
  have h := unknown_turn_api exCss 5 mFree (by decide)
  exact ⟨h.1, (h.2 TurnPriority.Yield (fun hc => nomatch hc)).trans (by decide)⟩

/-- Claim C10: the road-rank classifier maps classification tags to ranks exactly
per the fixed table (including rank 0 for a missing tag), and every
unrecognized non-empty tag is fatal (`none`) instead of defaulting to any
rank. -/
theorem rank_of_highway_table :
    (rank_of_highway (some "motorway") = some 20 ∧
     rank_of_highway (some "motorway_link") = some 19 ∧
     rank_of_highway (some "trunk") = some 17 ∧
     rank_of_highway (some "trunk_link") = some 16 ∧
     rank_of_highway (some "primary") = some 15 ∧
     rank_of_highway (some "primary_link") = some 14 ∧
     rank_of_highway (some "secondary") = some 13 ∧
     rank_of_highway (some "secondary_link") = some 12 ∧
     rank_of_highway (some "tertiary") = some 10 ∧
     rank_of_highway (some "tertiary_link") = some 9 ∧
     rank_of_highway (some "residential") = some 5 ∧
     rank_of_highway (some "footway") = some 1 ∧
     rank_of_highway (some "unclassified") = some 0 ∧
     rank_of_highway (some "road") = some 0 ∧
     rank_of_highway none = some 0) ∧
    ∀ s : String, s ≠ "" →
      s ∉ (["motorway", "motorway_link", "trunk", "trunk_link", "primary",
            "primary_link", "secondary", "secondary_link", "tertiary",
            "tertiary_link", "residential", "footway", "unclassified",
            "road"] : List String) →
      rank_of_highway (some s) = none := by
  constructor
  · decide
  · intro s _ hmem
    simp only [List.mem_cons, List.not_mem_nil, or_false, not_or] at hmem
    obtain ⟨h1, h2, h3, h4, h5, h6, h7, h8, h9, h10, h11, h12, h13, h14⟩ := hmem
    simp [rank_of_highway, h1, h2, h3, h4, h5, h6, h7, h8, h9, h10, h11,
      h12, h13, h14]

/-- Claim C10 witness: the real OSM tag "service" is absent from the table and is
rejected rather than defaulted. -/
theorem rank_of_highway_table_witness :
    rank_of_highway (some "service") = none :=
  rank_of_highway_table.2 "service" (by decide) (by decide)

/-- Claim C3: in the ranked strategy the turns are processed in the
intersection's fixed stored turn order; decomposing that order as
`L1 ++ t :: L2` with `mid` the state after processing `L1`: a turn `t`
whose source lane has the highest rank is assigned `Priority` exactly when
its shape is straight or right-turn AND it conflicts with no turn already
assigned `Priority` in this pass (`could_be_priority_turn` against `mid`),
otherwise `Yield`; a turn whose source lane has a lower rank is assigned
`Stop`. -/
theorem ranked_per_turn_assignment (m : Map) (i : IntersectionID)
    (A : List (LaneID × Nat)) (L1 L2 : List TurnID) (t : TurnID)
    (mid ss : ControlStopSign) (r : Nat)
    (hroads : ¬ (m.get_i i).roads.length ≤ 2)
    (hA : lane_ranks m
      ((m.get_i i).incoming_lanes ++ (m.get_i i).outgoing_lanes) = some A)
    (hranks : (A.map Prod.snd).dedup.length ≠ 1)
    (hturns : (m.get_i i).turns = L1 ++ t :: L2)
    (hnot : t ∉ L2)
    (hmid : ranked_loop m A ((A.map Prod.snd).foldl Nat.max 0) L1
      { intersection := i, turns := [], changed := false } = some mid)
    (hss : smart_assignment m i = some ss)
    (hr : alLookup A (m.get_t t).src = some r) :
    alLookup ss.turns t = some (
      if r = (A.map Prod.snd).foldl Nat.max 0 then
        if ((m.get_t t).is_right_turn || (m.get_t t).is_straight_turn)
            && could_be_priority_turn mid t m then
          TurnPriority.Priority
        else TurnPriority.Yield
      else TurnPriority.Stop) := by
  simp only [smart_assignment, if_neg hroads, hA] at hss
  rw [if_neg hranks] at hss
  rw [hturns, ranked_loop_append] at hss
  simp only [hmid] at hss
  rw [ranked_loop] at hss
  have hstep : ranked_step m A ((A.map Prod.snd).foldl Nat.max 0) mid t =
      some { mid with turns := alInsert mid.turns t (
        if r = (A.map Prod.snd).foldl Nat.max 0 then
          if ((m.get_t t).is_right_turn || (m.get_t t).is_straight_turn)
              && could_be_priority_turn mid t m then
            TurnPriority.Priority
          else TurnPriority.Yield
        else TurnPriority.Stop) } := by
    rw [ranked_step, hr]
    by_cases h1 : r = (A.map Prod.snd).foldl Nat.max 0
    · by_cases h2 : (((m.get_t t).is_right_turn || (m.get_t t).is_straight_turn)
          && could_be_priority_turn mid t m) = true
      · simp [h1, h2]
      · simp [h1, h2]
    · simp [h1]
  simp only [hstep] at hss
  rw [ranked_loop_lookup_of_not_mem m A _ L2 _ ss t hss hnot]
  exact alLookup_alInsert_self mid.turns t _

/-- Claim C3 witness: on `mR` with `L1 = []`, turn 0 (straight, from the
highest-ranked lane 0, no conflicts) is assigned `Priority`. -/
theorem ranked_per_turn_assignment_witness :
    alLookup ssR.turns 0 = some TurnPriority.Priority := by
  have h := ranked_per_turn_assignment mR 0 AR [] [1] 0
    { intersection := 0, turns := [], changed := false } ssR 15
    (by decide) (by decide) (by decide) (by decide) (by decide) (by decide)
    (by decide) (by decide)
  exact h.trans (by decide)

end StopSigns
